import Mathlib

/-!
A shallow embedding of the core of a read-only FAT32 filesystem reader
(FAT entry classification, cluster-chain reading, directory iteration with
long-filename assembly, file seek/read, and the sector cache), translated
from the Rust sources, together with theorems checking the natural-language
specification against it.
-/

namespace Fat32

/-- Abstract io error kinds used by the sources. -/
inductive IoErr where
  | invalidData
  | invalidInput
  | notFound
  | unexpectedEof
  deriving DecidableEq, Repr

/-- Result of running a piece of the translated code: a normal value, an io
error, a panic (for panic sites and unreachable branches), or divergence
(fuel exhaustion standing for a loop the source would never leave). -/
inductive RResult (α : Type) where
  | ok (a : α)
  | err (e : IoErr)
  | panic
  | diverge
  deriving DecidableEq, Repr

/-- fat.rs: the classification of a FAT entry. -/
inductive Status where
  | Free
  | Reserved
  | Data (c : Nat)
  | Bad
  | Eoc (raw : Nat)
  deriving DecidableEq, Repr

/-- Modelled from the spec: the Cluster newtype's conversion from a raw u32
(cluster.rs is not among the sources).  Per the spec only the low 28 bits of
the on-disk 32-bit representation are semantic, so the conversion masks off
the upper 4 bits. -/
def clusterFrom (raw : Nat) : Nat := raw % 2 ^ 28

/-- fat.rs FatEntry::status: mask off the upper 4 bits and classify.  The
result none models the final unreachable branch of the source match. -/
def FatEntry.status (val : Nat) : Option Status :=
  let v := val % 2 ^ 28
  if v = 0x0000000 then some .Free
  else if v = 0x0000001 then some .Reserved
  else if 0x0000002 ≤ v ∧ v ≤ 0xFFFFFEF then some (.Data (clusterFrom v))
  else if 0xFFFFFF0 ≤ v ∧ v ≤ 0xFFFFFF6 then some .Reserved
  else if v = 0xFFFFFF7 then some .Bad
  else if 0xFFFFFF8 ≤ v ∧ v ≤ 0xFFFFFFF then some (.Eoc v)
  else none

/-- vfat.rs VFat.  The cached block device is modelled by the pure function
`sector`, giving the bytes CachedDevice::get returns for a logical sector
(device io errors are not modelled; every read succeeds). -/
structure VFat where
  sector : Nat → List Nat
  bytes_per_sector : Nat
  sectors_per_cluster : Nat
  sectors_per_fat : Nat
  fat_start_sector : Nat
  data_start_sector : Nat
  root_dir_cluster : Nat

/-- The little-endian u32 formed by bytes i, i+1, i+2, i+3 of a byte list
(out-of-range reads give 0). -/
def le32At (l : List Nat) (i : Nat) : Nat :=
  l.getD i 0 + 0x100 * l.getD (i + 1) 0 + 0x10000 * l.getD (i + 2) 0
    + 0x1000000 * l.getD (i + 3) 0

/-- vfat.rs VFat::fat_entry: locate the 4-byte FAT entry of a cluster inside
the FAT region and return its little-endian value (the byte offset is u32
arithmetic, hence the mod 2^32). -/
def VFat.fat_entry (v : VFat) (cluster : Nat) : RResult Nat :=
  let offset_by_byte := cluster * 4 % 2 ^ 32
  let offset_by_sector := offset_by_byte / v.bytes_per_sector
  if v.sectors_per_fat ≤ offset_by_sector then .err .notFound
  else
    let nsector := offset_by_sector + v.fat_start_sector
    let offset_in_sector := offset_by_byte % v.bytes_per_sector
    .ok (le32At (v.sector nsector) offset_in_sector)

/-- vfat.rs VFat::cluster_size. -/
def VFat.cluster_size (v : VFat) : Nat := v.sectors_per_cluster * v.bytes_per_sector

/-- vfat.rs read_cluster's while loop: as long as index < total, read a whole
sector through CachedDevice::read_sector into buf[index..] (which copies
min(bytes_per_sector, bufLen - index) bytes) and advance.  The fuel bounds
the number of iterations; the callers pass total, which is enough whenever
bytes_per_sector is positive, i.e. whenever the source loop terminates. -/
def VFat.readLoop (v : VFat) : Nat → Nat → Nat → Nat → Nat → List Nat → List Nat × Nat
  | 0, _, index, _, _, acc => (acc, index)
  | fuel + 1, nsector, index, total, bufLen, acc =>
    if index < total then
      let len := min v.bytes_per_sector (bufLen - index)
      VFat.readLoop v fuel (nsector + 1) (index + len) total bufLen
        (acc ++ (v.sector nsector).take len)
    else (acc, index)

/-- vfat.rs VFat::read_cluster: read up to cluster_size - offset bytes (or
bufLen, whichever is smaller) of the given cluster starting at byte offset
`offset`.  Returns the bytes written at the start of the buffer together
with the count the source returns. -/
def VFat.read_cluster (v : VFat) (cluster offset bufLen : Nat) :
    RResult (List Nat × Nat) :=
  match v.fat_entry cluster with
  | .err e => .err e
  | .panic => .panic
  | .diverge => .diverge
  | .ok raw =>
    match FatEntry.status raw with
    | none => .panic
    | some st =>
      if st = .Bad then .err .invalidData
      else if cluster < 2 then .err .invalidInput
      else
        let nsector := v.data_start_sector + (cluster - 2) * v.sectors_per_cluster
          + offset / v.bytes_per_sector
        let offset_in_sector := offset % v.bytes_per_sector
        let until' := min (bufLen + offset_in_sector) v.bytes_per_sector
        let first := ((v.sector nsector).drop offset_in_sector).take (until' - offset_in_sector)
        let index := until' - offset_in_sector
        let total := min (v.cluster_size - offset) bufLen
        let res := VFat.readLoop v total (nsector + 1) index total bufLen first
        .ok (res.1, total)

/-- Vec::resize(n, 0): truncate or zero-extend to length n. -/
def resizeList (l : List Nat) (n : Nat) : List Nat :=
  l.take n ++ List.replicate (n - l.length) 0

/-- vfat.rs VFat::read_chain's loop: classify the current cluster's FAT
entry, fail InvalidData on anything but Data/Eoc, grow the buffer by one
cluster, read the cluster, and continue with the successor.  The fuel bounds
the number of clusters visited; exhaustion (a FAT cycle, on which the source
would loop forever) yields diverge. -/
def VFat.read_chain_aux (v : VFat) :
    Nat → Option Nat → List Nat → Nat → RResult (List Nat × Nat)
  | _, none, buf, index => .ok (buf, index)
  | 0, some _, _, _ => .diverge
  | fuel + 1, some cluster, buf, index =>
    let nextR : RResult (Option Nat) :=
      match v.fat_entry cluster with
      | .err e => .err e
      | .panic => .panic
      | .diverge => .diverge
      | .ok raw =>
        match FatEntry.status raw with
        | none => .panic
        | some (.Data n) => .ok (some n)
        | some (.Eoc _) => .ok none
        | some _ => .err .invalidData
    match nextR with
    | .err e => .err e
    | .panic => .panic
    | .diverge => .diverge
    | .ok next =>
      let buf' := resizeList buf (index + v.cluster_size)
      match v.read_cluster cluster 0 (buf'.length - index) with
      | .err e => .err e
      | .panic => .panic
      | .diverge => .diverge
      | .ok (bytes, cnt) =>
        let buf'' := buf'.take index ++ bytes ++ buf'.drop (index + bytes.length)
        VFat.read_chain_aux v fuel next buf'' (index + cnt)

/-- vfat.rs VFat::read_chain, started on a fresh vector. -/
def VFat.read_chain (v : VFat) (fuel start : Nat) : RResult (List Nat × Nat) :=
  VFat.read_chain_aux v fuel (some start) [] 0

/-- The classified FAT status of a cluster: fat_entry followed by status
(none when fat_entry fails or status is unreachable). -/
def VFat.statusOf (v : VFat) (c : Nat) : Option Status :=
  match v.fat_entry c with
  | .ok raw => FatEntry.status raw
  | _ => none

def isDataTo (c' : Nat) : Option Status → Bool
  | some (.Data n) => n == c'
  | _ => false

def isEocStatus : Option Status → Bool
  | some (.Eoc _) => true
  | _ => false

/-- A Free, Reserved or Bad status: the ones on which read_chain must fail. -/
def isFrbStatus : Option Status → Bool
  | some .Free => true
  | some .Reserved => true
  | some .Bad => true
  | _ => false

/-- The list c0, ..., ck is a valid FAT chain: consecutive Data links, a
final Eoc, and every cluster is a data cluster (at least 2). -/
def ChainOk (v : VFat) : List Nat → Bool
  | [] => false
  | [c] => decide (2 ≤ c) && isEocStatus (v.statusOf c)
  | c :: c' :: rest => decide (2 ≤ c) && isDataTo c' (v.statusOf c) && ChainOk v (c' :: rest)

/-- The list c0, ..., ck is linked by Data entries and its last element's FAT
entry has status Free, Reserved or Bad. -/
def ChainBad (v : VFat) : List Nat → Bool
  | [] => false
  | [c] => isFrbStatus (v.statusOf c)
  | c :: c' :: rest => decide (2 ≤ c) && isDataTo c' (v.statusOf c) && ChainBad v (c' :: rest)

/-- The on-disk bytes of a data cluster: the sectors_per_cluster consecutive
sectors starting at data_start_sector + (c - 2) * sectors_per_cluster. -/
def VFat.clusterData (v : VFat) (c : Nat) : List Nat :=
  ((List.range' (v.data_start_sector + (c - 2) * v.sectors_per_cluster)
      v.sectors_per_cluster).map v.sector).flatten

/-- file.rs File (name and metadata omitted: they play no role in seek or
read). -/
structure FileS where
  size : Nat
  first_cluster : Nat
  offset : Nat
  deriving DecidableEq, Repr

inductive SeekFrom where
  | fromStart (o : Nat)
  | fromEnd (o : Int)
  | fromCurrent (o : Int)
  deriving DecidableEq, Repr

/-- file.rs seek's final bound check and state update, on the computed
non-negative target (a u64); the stored offset is truncated to u32 as in the
source. -/
def seekTo (f : FileS) (o : Nat) : Except IoErr (Nat × FileS) :=
  if f.size < o then .error .invalidInput
  else .ok (o, { f with offset := o % 2 ^ 32 })

/-- file.rs impl io::Seek for File::seek. -/
def File.seek (f : FileS) (pos : SeekFrom) : Except IoErr (Nat × FileS) :=
  match pos with
  | .fromStart o => seekTo f o
  | .fromEnd o =>
    let t : Int := (f.size : Int) + o
    if t < 0 then .error .invalidInput else seekTo f t.toNat
  | .fromCurrent o =>
    let t : Int := (f.offset : Int) + o
    if t < 0 then .error .invalidInput else seekTo f t.toNat

/-- The seek target as the spec describes it: absolute from the start, size
plus offset from the end, current plus offset from the current position. -/
def seekTarget (f : FileS) (pos : SeekFrom) : Int :=
  match pos with
  | .fromStart o => (o : Int)
  | .fromEnd o => (f.size : Int) + o
  | .fromCurrent o => (f.offset : Int) + o

/-- file.rs impl io::Read for File::read (a single call): compute
offset / cluster_size, use it directly as a cluster number (the conversion
into Cluster masks to 28 bits), read, then seek forward by the returned
count.  Returns the bytes, the count, and the updated file. -/
def File.read (v : VFat) (f : FileS) (bufLen : Nat) : RResult (List Nat × Nat × FileS) :=
  let cluster := f.offset / v.cluster_size
  let offset_in_cluster := f.offset % v.cluster_size
  let available_bytes := f.size - f.offset
  let len := min available_bytes bufLen
  match v.read_cluster (clusterFrom cluster) offset_in_cluster len with
  | .err e => .err e
  | .panic => .panic
  | .diverge => .diverge
  | .ok (bytes, read_bytes) =>
    match File.seek f (.fromCurrent (read_bytes : Int)) with
    | .error e => .err e
    | .ok (_, f') => .ok (bytes, read_bytes, f')

/-- metadata.rs Attributes::lfn: the bit test attrs & 0x0F == 0x0F. -/
def Attributes.lfn (a : Nat) : Bool := a &&& 0x0F == 0x0F

/-- metadata.rs Attributes::directory: the bit test attrs & 0x10 == 0x10. -/
def Attributes.directory (a : Nat) : Bool := a &&& 0x10 == 0x10

/-- Byte i of a 32-byte directory record (records are byte lists). -/
def byteAt (r : List Nat) (i : Nat) : Nat := r.getD i 0

/-- The little-endian u16 at byte offset i of a record. -/
def u16At (r : List Nat) (i : Nat) : Nat := byteAt r i + 0x100 * byteAt r (i + 1)

/-- The little-endian u32 at byte offset i of a record. -/
def u32At (r : List Nat) (i : Nat) : Nat := u16At r i + 0x10000 * u16At r (i + 2)

/-- dir.rs VFatLfnDirEntry: the 13 UCS-2 code units of an LFN record, taken
from the three disjoint field ranges (bytes 1..11, 14..26, 28..32). -/
def lfnUnits (r : List Nat) : List Nat :=
  [u16At r 1, u16At r 3, u16At r 5, u16At r 7, u16At r 9,
   u16At r 14, u16At r 16, u16At r 18, u16At r 20, u16At r 22, u16At r 24,
   u16At r 28, u16At r 30]

/-- dir.rs: the scratchpad [[0u16; 13]; 0x1F] inserted by get_or_insert. -/
def emptyScratch : List (List Nat) := List.replicate 0x1F (List.replicate 13 0)

/-- std char::decode_utf16 with lossy replacement (String::from_utf16_lossy):
u16 code units to unicode scalar values, unpaired surrogates becoming
U+FFFD.  The fuel (initially the list length) bounds the recursion; every
step consumes at least one unit. -/
def utf16LossyGo : Nat → List Nat → List Nat
  | 0, _ => []
  | _, [] => []
  | fuel + 1, u :: rest =>
    if u < 0xD800 ∨ 0xE000 ≤ u then u :: utf16LossyGo fuel rest
    else if u ≤ 0xDBFF then
      match rest with
      | u2 :: rest' =>
        if 0xDC00 ≤ u2 ∧ u2 ≤ 0xDFFF then
          (0x10000 + (u - 0xD800) * 0x400 + (u2 - 0xDC00)) :: utf16LossyGo fuel rest'
        else 0xFFFD :: utf16LossyGo fuel rest
      | [] => [0xFFFD]
    else 0xFFFD :: utf16LossyGo fuel rest

def utf16Lossy (l : List Nat) : List Nat := utf16LossyGo l.length l

/-- Valid first continuation byte of a multi-byte UTF-8 sequence headed by b. -/
def utf8Cont1Ok (b b1 : Nat) : Bool :=
  if b == 0xE0 then decide (0xA0 ≤ b1 ∧ b1 ≤ 0xBF)
  else if b == 0xED then decide (0x80 ≤ b1 ∧ b1 ≤ 0x9F)
  else if b == 0xF0 then decide (0x90 ≤ b1 ∧ b1 ≤ 0xBF)
  else if b == 0xF4 then decide (0x80 ≤ b1 ∧ b1 ≤ 0x8F)
  else decide (0x80 ≤ b1 ∧ b1 ≤ 0xBF)

/-- std String::from_utf8_lossy: UTF-8 bytes to unicode scalar values, with
U+FFFD substituted for each maximal invalid subpart.  The fuel (initially
the list length) bounds the recursion; every step consumes at least one
byte. -/
def utf8LossyGo : Nat → List Nat → List Nat
  | 0, _ => []
  | _, [] => []
  | fuel + 1, b :: rest =>
    if b < 0x80 then b :: utf8LossyGo fuel rest
    else if 0xC2 ≤ b ∧ b ≤ 0xDF then
      match rest with
      | [] => [0xFFFD]
      | b1 :: rest1 =>
        if 0x80 ≤ b1 ∧ b1 ≤ 0xBF then
          ((b - 0xC0) * 0x40 + (b1 - 0x80)) :: utf8LossyGo fuel rest1
        else 0xFFFD :: utf8LossyGo fuel rest
    else if 0xE0 ≤ b ∧ b ≤ 0xEF then
      match rest with
      | [] => [0xFFFD]
      | b1 :: rest1 =>
        if utf8Cont1Ok b b1 then
          match rest1 with
          | [] => [0xFFFD, 0xFFFD]
          | b2 :: rest2 =>
            if 0x80 ≤ b2 ∧ b2 ≤ 0xBF then
              ((b - 0xE0) * 0x1000 + (b1 - 0x80) * 0x40 + (b2 - 0x80))
                :: utf8LossyGo fuel rest2
            else 0xFFFD :: utf8LossyGo fuel rest1
        else 0xFFFD :: utf8LossyGo fuel rest
    else if 0xF0 ≤ b ∧ b ≤ 0xF4 then
      match rest with
      | [] => [0xFFFD]
      | b1 :: rest1 =>
        if utf8Cont1Ok b b1 then
          match rest1 with
          | [] => [0xFFFD, 0xFFFD]
          | b2 :: rest2 =>
            if 0x80 ≤ b2 ∧ b2 ≤ 0xBF then
              match rest2 with
              | [] => [0xFFFD, 0xFFFD, 0xFFFD]
              | b3 :: rest3 =>
                if 0x80 ≤ b3 ∧ b3 ≤ 0xBF then
                  ((b - 0xF0) * 0x40000 + (b1 - 0x80) * 0x1000 + (b2 - 0x80) * 0x40
                      + (b3 - 0x80)) :: utf8LossyGo fuel rest3
                else 0xFFFD :: utf8LossyGo fuel rest2
            else 0xFFFD :: utf8LossyGo fuel rest1
        else 0xFFFD :: utf8LossyGo fuel rest
    else 0xFFFD :: utf8LossyGo fuel rest

def utf8Lossy (l : List Nat) : List Nat := utf8LossyGo l.length l

/-- A produced directory entry (dir.rs Entry::File / Entry::Dir).  The name
is the decoded unicode scalar sequence of the Rust String; size is the
on-disk size field (meaningful for files). -/
structure EntryM where
  name : List Nat
  attrs : Nat
  first_cluster : Nat
  size : Nat
  isDir : Bool
  deriving DecidableEq, Repr

/-- dir.rs EntryIter::next, regular-entry arm: the emitted entry.  The name
comes from the LFN scratchpad when one is populated (flatten the 31 slots
and truncate at the first 0x0000 or 0xFFFF unit, then decode as UTF-16
lossy), else from the 8.3 short name (each part truncated at the first
0x00 or 0x20 byte and decoded as UTF-8 lossy, joined by a dot when the
extension is nonempty). -/
def mkEntry (lfn : Option (List (List Nat))) (r : List Nat) : EntryM :=
  let name :=
    match lfn with
    | some sc => utf16Lossy (sc.flatten.takeWhile fun c => !(c == 0x0000 || c == 0xFFFF))
    | none =>
      let nm := (r.take 8).takeWhile fun c => !(c == 0x00 || c == 0x20)
      let ext := ((r.drop 8).take 3).takeWhile fun c => !(c == 0x00 || c == 0x20)
      utf8Lossy nm ++ (if ext.isEmpty then [] else 0x2E :: utf8Lossy ext)
  { name := name
    attrs := byteAt r 11
    first_cluster := clusterFrom ((u16At r 20) <<< 16 ||| u16At r 26)
    size := u32At r 28
    isDir := Attributes.directory (byteAt r 11) }

/-- dir.rs EntryIter::next driven to completion over the raw 32-byte
records: terminate on a first byte 0x00, skip 0xE5 records, accumulate LFN
records into the scratchpad (panicking on a sequence number whose low five
bits are outside 1..=0x1F), and emit regular entries, clearing the
scratchpad after each. -/
def EntryIter.run (lfn : Option (List (List Nat))) : List (List Nat) → RResult (List EntryM)
  | [] => .ok []
  | r :: rest =>
    let seq := byteAt r 0
    if seq == 0x00 then .ok []
    else if seq == 0xE5 then EntryIter.run lfn rest
    else if Attributes.lfn (byteAt r 11) then
      let seq_num := seq &&& 0b00011111
      if ¬(0x01 ≤ seq_num ∧ seq_num ≤ 0x1F) then .panic
      else
        let sc := lfn.getD emptyScratch
        EntryIter.run (some (sc.set (seq_num - 1) (lfnUnits r))) rest
    else
      match EntryIter.run none rest with
      | .ok es => .ok (mkEntry lfn r :: es)
      | .err e => .err e
      | .panic => .panic
      | .diverge => .diverge

/-- std u8::to_ascii_lowercase on a byte or scalar value. -/
def asciiLower (b : Nat) : Nat := if 0x41 ≤ b ∧ b ≤ 0x5A then b + 0x20 else b

/-- std ASCII uppercasing of a byte or scalar value. -/
def asciiUpper (b : Nat) : Nat := if 0x61 ≤ b ∧ b ≤ 0x7A then b - 0x20 else b

/-- std str::eq_ignore_ascii_case, on unicode scalar sequences (equivalent
to the byte-wise comparison of the UTF-8 encodings, since ASCII folding only
touches single-byte sequences and UTF-8 is injective). -/
def eqIgnoreAsciiCase (a b : List Nat) : Bool :=
  a.length == b.length &&
    (List.zip a b).all fun p => asciiLower p.1 == asciiLower p.2

/-- dir.rs Dir::find's loop over the produced entries: the first entry whose
name compares equal ignoring ASCII case, else NotFound. -/
def findGo (q : List Nat) : List EntryM → RResult EntryM
  | [] => .err .notFound
  | e :: rest => if eqIgnoreAsciiCase e.name q then .ok e else findGo q rest

/-- dir.rs Dir::find over the directory's raw 32-byte records (entries()
reads the directory chain and reinterprets it as records; the query is a
valid-unicode name given as its scalar sequence). -/
def Dir.find (recs : List (List Nat)) (q : List Nat) : RResult EntryM :=
  match EntryIter.run none recs with
  | .ok es => findGo q es
  | .err e => .err e
  | .panic => .panic
  | .diverge => .diverge

/-- cache.rs Partition. -/
structure Partition where
  start : Nat
  sector_size : Nat
  deriving DecidableEq, Repr

/-- cache.rs CacheEntry. -/
structure CacheEntry where
  data : List Nat
  dirty : Bool
  deriving DecidableEq, Repr

/-- cache.rs CachedDevice: the HashMap is an association list whose later
inserts shadow earlier ones, and the raw device is the pure function
device_sector from physical sector number to bytes (device io errors are
not modelled). -/
structure CachedDeviceM where
  device_sector_size : Nat
  device_sector : Nat → List Nat
  partition : Partition
  cache : List (Nat × CacheEntry)

def cacheLookup (m : List (Nat × CacheEntry)) (k : Nat) : Option CacheEntry :=
  match m.find? (fun p => p.1 == k) with
  | some p => some p.2
  | none => none

/-- cache.rs CachedDevice::new: the only enforced condition is the assert
that the partition sector size is at least the device sector size; none
models the assertion panic.  No divisibility check is performed. -/
def CachedDevice.new (device_sector_size : Nat) (device_sector : Nat → List Nat)
    (partition : Partition) : Option CachedDeviceM :=
  if device_sector_size ≤ partition.sector_size then
    some { device_sector_size := device_sector_size, device_sector := device_sector,
           partition := partition, cache := [] }
  else none

/-- cache.rs CachedDevice::virtual_to_physical. -/
def CachedDeviceM.virtual_to_physical (d : CachedDeviceM) (virt : Nat) : Nat × Nat :=
  if d.device_sector_size == d.partition.sector_size then (virt, 1)
  else if virt < d.partition.start then (virt, 1)
  else
    let factor := d.partition.sector_size / d.device_sector_size
    (d.partition.start + (virt - d.partition.start) * factor, factor)

/-- cache.rs CachedDevice::reload_sector: read the physical sectors backing
the virtual sector into a fresh logical-sector buffer and insert the cache
entry — with dirty set to true. -/
def CachedDeviceM.reload_sector (d : CachedDeviceM) (sector : Nat) : CachedDeviceM :=
  let pn := d.virtual_to_physical sector
  let base := List.replicate d.partition.sector_size 0
  let chunks := ((List.range pn.2).map fun i =>
    ((d.device_sector (pn.1 + i)) ++ List.replicate d.device_sector_size 0).take
      d.device_sector_size).flatten
  let data := (chunks ++ base.drop chunks.length).take d.partition.sector_size
  { d with cache := (sector, { data := data, dirty := true }) :: d.cache }

/-- cache.rs CachedDevice::ensure_cached. -/
def CachedDeviceM.ensure_cached (d : CachedDeviceM) (sector : Nat) : CachedDeviceM :=
  if (cacheLookup d.cache sector).isSome then d else d.reload_sector sector

/-- cache.rs CachedDevice::get: the cached bytes and the updated device. -/
def CachedDeviceM.get (d : CachedDeviceM) (sector : Nat) : List Nat × CachedDeviceM :=
  let d' := d.ensure_cached sector
  (((cacheLookup d'.cache sector).getD { data := [], dirty := false }).data, d')

/-- cache.rs CachedDevice::get_mut: identical cache effect to get — the
implementation itself never touches the dirty flag (entries are already
inserted dirty by reload_sector). -/
def CachedDeviceM.get_mut (d : CachedDeviceM) (sector : Nat) : List Nat × CachedDeviceM :=
  let d' := d.ensure_cached sector
  (((cacheLookup d'.cache sector).getD { data := [], dirty := false }).data, d')

/-- cache.rs impl BlockDevice for CachedDevice::read_sector: copy
min(logical sector size, buffer length) bytes out of the cached sector. -/
def CachedDeviceM.read_sector (d : CachedDeviceM) (n : Nat) (bufLen : Nat) :
    (List Nat × Nat) × CachedDeviceM :=
  let gd := d.get n
  let len := min d.partition.sector_size bufLen
  ((gd.1.take len, len), gd.2)

/-- Sector contents of a small concrete filesystem: bytes_per_sector 4, one
FAT entry per sector, FAT region at sectors 0..16, data region from sector
16, one sector per cluster.  Cluster 2 links to cluster 3 which is
end-of-chain; their data is 1,2,3,4 and 5,6,7,8. -/
def sampleSector (n : Nat) : List Nat :=
  if n = 2 then [3, 0, 0, 0]
  else if n = 3 then [0xF8, 0xFF, 0xFF, 0x0F]
  else if n = 16 then [1, 2, 3, 4]
  else if n = 17 then [5, 6, 7, 8]
  else [0, 0, 0, 0]

/-- The concrete mounted filesystem over sampleSector. -/
def sampleVFat : VFat :=
  { sector := sampleSector
    bytes_per_sector := 4
    sectors_per_cluster := 1
    sectors_per_fat := 16
    fat_start_sector := 0
    data_start_sector := 16
    root_dir_cluster := 2 }

/-- A concrete LFN record: sequence byte 0x41 (last entry, sequence 1), the
single name character U+00E9 followed by a 0x0000 terminator and 0xFFFF
padding, attributes 0x0F. -/
def lfnRecE : List Nat :=
  [0x41, 0xE9, 0x00, 0x00, 0x00, 0xFF, 0xFF, 0xFF, 0xFF, 0xFF, 0xFF,
   0x0F, 0x00, 0x00,
   0xFF, 0xFF, 0xFF, 0xFF, 0xFF, 0xFF, 0xFF, 0xFF, 0xFF, 0xFF, 0xFF, 0xFF,
   0x00, 0x00, 0xFF, 0xFF, 0xFF, 0xFF]

/-- The same record with attributes byte 0x1F: all four LFN bits set plus
the DIRECTORY bit. -/
def lfnRec1F : List Nat :=
  [0x41, 0xE9, 0x00, 0x00, 0x00, 0xFF, 0xFF, 0xFF, 0xFF, 0xFF, 0xFF,
   0x1F, 0x00, 0x00,
   0xFF, 0xFF, 0xFF, 0xFF, 0xFF, 0xFF, 0xFF, 0xFF, 0xFF, 0xFF, 0xFF, 0xFF,
   0x00, 0x00, 0xFF, 0xFF, 0xFF, 0xFF]

/-- An LFN-attribute record whose sequence byte is 0x40: the last-entry flag
with a low-5-bit sequence number of 0. -/
def badSeqRec : List Nat :=
  [0x40, 0xE9, 0x00, 0x00, 0x00, 0xFF, 0xFF, 0xFF, 0xFF, 0xFF, 0xFF,
   0x0F, 0x00, 0x00,
   0xFF, 0xFF, 0xFF, 0xFF, 0xFF, 0xFF, 0xFF, 0xFF, 0xFF, 0xFF, 0xFF, 0xFF,
   0x00, 0x00, 0xFF, 0xFF, 0xFF, 0xFF]

/-- A concrete short (regular) record: name E, blank extension, attributes
0x20 (archive, a file), first cluster high16 0 and low16 5, size 0. -/
def shortRecE : List Nat :=
  [0x45, 0x20, 0x20, 0x20, 0x20, 0x20, 0x20, 0x20, 0x20, 0x20, 0x20,
   0x20, 0x00, 0x00,
   0x00, 0x00, 0x00, 0x00, 0x00, 0x00, 0x00, 0x00, 0x00, 0x00, 0x00, 0x00,
   0x05, 0x00, 0x00, 0x00, 0x00, 0x00]

/-- A concrete "." directory record whose composed first cluster is 0: name
byte 0x2E then blanks, attributes 0x10 (directory), high16 = low16 = 0,
size 0. -/
def dotRec : List Nat :=
  [0x2E, 0x20, 0x20, 0x20, 0x20, 0x20, 0x20, 0x20, 0x20, 0x20, 0x20,
   0x10, 0x00, 0x00,
   0x00, 0x00, 0x00, 0x00, 0x00, 0x00, 0x00, 0x00, 0x00, 0x00, 0x00, 0x00,
   0x00, 0x00, 0x00, 0x00, 0x00, 0x00]

/-- A concrete cached device with an empty cache: 4-byte physical and
logical sectors, every device sector holding 9,9,9,9. -/
def sampleCache : CachedDeviceM :=
  { device_sector_size := 4
    device_sector := fun _ => [9, 9, 9, 9]
    partition := { start := 0, sector_size := 4 }
    cache := [] }

/-- Every byte read out of a record whose bytes are below 256 is below 256
(out-of-range reads give 0). -/
theorem byteAt_lt (r : List Nat) (hb : ∀ b ∈ r, b < 256) (i : Nat) : byteAt r i < 256 := by
  induction r generalizing i with
  | nil => simp [byteAt, List.getD]
  | cons a t ih =>
    cases i with
    | zero => simpa [byteAt] using hb a (by simp)
    | succ j =>
      simpa [byteAt, List.getD_cons_succ] using
        ih (fun b hbm => hb b (by simp [hbm])) j

/-- ASCII lowercasing absorbs ASCII uppercasing. -/
theorem asciiLower_asciiUpper (x : Nat) : asciiLower (asciiUpper x) = asciiLower x := by
  unfold asciiLower asciiUpper
  split_ifs <;> omega

/-- ASCII lowercasing is idempotent. -/
theorem asciiLower_asciiLower (x : Nat) : asciiLower (asciiLower x) = asciiLower x := by
  unfold asciiLower
  split_ifs <;> omega

/-- The sample device's sectors all have the declared sector length. -/
theorem sampleSector_length (n : Nat) :
    (sampleVFat.sector n).length = sampleVFat.bytes_per_sector := by
  show (sampleSector n).length = 4
  unfold sampleSector
  split_ifs <;> rfl

/-- C10: FatEntry::status is a total classification: for every on-disk entry
value, the masked 28-bit value falls into one of the five variants; the
unreachable fallback branch (the none result) is never taken. -/
theorem c10_fat_status_total (val : Nat) : ∃ s : Status, FatEntry.status val = some s := by
  simp only [FatEntry.status]
  have hlt : val % 2 ^ 28 < 2 ^ 28 := Nat.mod_lt _ (by norm_num)
  split_ifs <;> first
    | exact ⟨_, rfl⟩
    | (exfalso; omega)

/-- C7: seek computes the target absolutely for Start, size + offset for End
and current + offset for Current; it succeeds and returns the target exactly
when the target lies in [0, size] (seeking to exactly size included), and
fails InvalidInput when the target is negative or greater than size. -/
theorem c7_seek_spec (f : FileS) (pos : SeekFrom) (hsz : f.size < 2 ^ 32) :
    (0 ≤ seekTarget f pos ∧ seekTarget f pos ≤ (f.size : Int) →
      File.seek f pos =
        .ok ((seekTarget f pos).toNat, { f with offset := (seekTarget f pos).toNat })) ∧
    ((seekTarget f pos < 0 ∨ (f.size : Int) < seekTarget f pos) →
      File.seek f pos = .error .invalidInput) := by
  constructor
  · rintro ⟨h0, h1⟩
    cases pos with
    | fromStart o =>
      simp only [seekTarget] at h0 h1
      have ho : o ≤ f.size := by exact_mod_cast h1
      simp only [File.seek, seekTo, seekTarget, Int.toNat_natCast]
      rw [if_neg (not_lt.mpr ho), Nat.mod_eq_of_lt (by omega)]
    | fromEnd o =>
      simp only [seekTarget] at h0 h1
      simp only [File.seek, seekTo, seekTarget]
      rw [if_neg (by omega), if_neg (by omega), Nat.mod_eq_of_lt (by omega)]
    | fromCurrent o =>
      simp only [seekTarget] at h0 h1
      simp only [File.seek, seekTo, seekTarget]
      rw [if_neg (by omega), if_neg (by omega), Nat.mod_eq_of_lt (by omega)]
  · intro h
    cases pos with
    | fromStart o =>
      simp only [seekTarget] at h
      simp only [File.seek, seekTo]
      rw [if_pos (by omega)]
    | fromEnd o =>
      simp only [seekTarget] at h
      simp only [File.seek, seekTo]
      rcases h with h | h
      · rw [if_pos (by omega)]
      · rw [if_neg (by omega), if_pos (by omega)]
    | fromCurrent o =>
      simp only [seekTarget] at h
      simp only [File.seek, seekTo]
      rcases h with h | h
      · rw [if_pos (by omega)]
      · rw [if_neg (by omega), if_pos (by omega)]

/-- Witness for c7_seek_spec: size 10, current offset 3, SeekFrom::End(-4)
lands at position 6. -/
theorem c7_seek_spec_witness :
    File.seek { size := 10, first_cluster := 2, offset := 3 } (.fromEnd (-4)) =
      .ok (6, { size := 10, first_cluster := 2, offset := 6 }) := by
  exact (c7_seek_spec { size := 10, first_cluster := 2, offset := 3 } (.fromEnd (-4))
    (by norm_num)).1 (by constructor <;> decide)

/-- C8 amended: construction of the cached device succeeds exactly when the
partition (logical) sector size is at least the device (physical) sector
size; integrality of the quotient is not checked. -/
theorem c8_new_iff (dss : Nat) (dev : Nat → List Nat) (p : Partition) :
    (CachedDevice.new dss dev p).isSome = true ↔ dss ≤ p.sector_size := by
  unfold CachedDevice.new
  split_ifs with h <;> simp [h]

/-- C8 counterexample: a 768-byte logical sector over a 512-byte physical
sector — a non-integral quotient — is accepted by the constructor. -/
theorem c8_counterexample :
    (CachedDevice.new 512 (fun _ => List.replicate 512 0)
        { start := 0, sector_size := 768 }).isSome = true ∧ ¬(512 ∣ 768) := by
  exact ⟨rfl, by decide⟩

/-- C9 (evaluation at the failing input): on a fresh cache, loading a sector
through the read-only get path leaves its cache entry with dirty = true,
because reload_sector inserts every entry dirty. -/
theorem c9_get_marks_dirty :
    (cacheLookup (sampleCache.get 0).2.cache 0).map CacheEntry.dirty = some true := by
  rfl

/-- C1 (evaluation at the failing input): on sampleVFat, a file of size 8
with first cluster 2 and the valid on-disk chain 2 -> 3 -> Eoc; reading at
offset 0 computes 0 / cluster_size = 0, uses that quotient directly as a
cluster number, and fails InvalidInput instead of serving the file's bytes —
the FAT chain is never walked from first_cluster. -/
theorem c1_read_quotient_as_cluster :
    ChainOk sampleVFat [2, 3] = true ∧
      File.read sampleVFat { size := 8, first_cluster := 2, offset := 0 } 8 =
        .err .invalidInput := by
  exact ⟨rfl, rfl⟩

/-- C2 counterexample: the attributes byte 0x1F passes the LFN test, and a
record carrying it is consumed as an LFN entry: the short entry that follows
is emitted under the long name taken from that record (the scalar 0xE9),
not under its own short name. -/
theorem c2_counterexample :
    Attributes.lfn 0x1F = true ∧
      EntryIter.run none [lfnRec1F, shortRecE] =
        .ok [{ name := [0xE9], attrs := 0x20, first_cluster := 5, size := 0,
               isDir := false }] := by
  exact ⟨rfl, by decide⟩

/-- C3 counterexample: on a filesystem whose root directory cluster is 2,
the "." record whose composed cluster value is 0 is emitted with first
cluster 0: the root cluster is not substituted. -/
theorem c3_counterexample :
    EntryIter.run none [dotRec] =
        .ok [{ name := [0x2E], attrs := 0x10, first_cluster := 0, size := 0,
               isDir := true }] ∧
      sampleVFat.root_dir_cluster = 2 := by
  exact ⟨by decide, rfl⟩

/-- C4 counterexample: a record with LFN attributes and sequence byte 0x40
(low five bits 0) makes the directory iterator panic; it does not return an
InvalidData error. -/
theorem c4_counterexample :
    EntryIter.run none [badSeqRec] = .panic ∧
      EntryIter.run none [badSeqRec] ≠ .err .invalidData := by
  exact ⟨rfl, by decide⟩

/-- C6 counterexample: the directory holds a single entry whose decoded LFN
name is the scalar 0xE9 (a lowercase accented letter); looking it up by that
name succeeds, but looking it up by its unicode uppercase form 0xC9 fails
NotFound — the uppercased and lowercased lookups do not return the same
entry. -/
theorem c6_counterexample :
    Dir.find [lfnRecE, shortRecE] [0xE9] =
        .ok { name := [0xE9], attrs := 0x20, first_cluster := 5, size := 0,
              isDir := false } ∧
      Dir.find [lfnRecE, shortRecE] [0xC9] = .err .notFound := by
  exact ⟨by decide, by decide⟩

/-- C2 amended: a record that reaches the attribute check (sequence byte not
0x00 or 0xE5, low-5-bit sequence number nonzero) is treated as an LFN entry
if and only if the bit test attrs & 0x0F == 0x0F passes: then its code units
go into the scratchpad slot and iteration continues, else it is emitted as a
regular entry.  In particular 0x1F is treated as an LFN entry. -/
theorem c2_lfn_detection (lfn : Option (List (List Nat))) (rest : List (List Nat))
    (r : List Nat) (h0 : byteAt r 0 ≠ 0x00) (h1 : byteAt r 0 ≠ 0xE5)
    (hseq : byteAt r 0 &&& 0x1F ≠ 0) :
    EntryIter.run lfn (r :: rest) =
      if Attributes.lfn (byteAt r 11) then
        EntryIter.run
          (some ((lfn.getD emptyScratch).set ((byteAt r 0 &&& 0x1F) - 1) (lfnUnits r))) rest
      else
        match EntryIter.run none rest with
        | .ok es => .ok (mkEntry lfn r :: es)
        | .err e => .err e
        | .panic => .panic
        | .diverge => .diverge := by
  have hle : byteAt r 0 &&& 0x1F ≤ 0x1F := Nat.and_le_right
  by_cases hl : Attributes.lfn (byteAt r 11)
  · rw [if_pos hl]
    simp only [EntryIter.run, beq_iff_eq, if_neg h0, if_neg h1, if_pos hl]
    rw [if_neg (not_not_intro ⟨by omega, hle⟩)]
  · rw [if_neg hl]
    simp only [EntryIter.run, beq_iff_eq, if_neg h0, if_neg h1, if_neg hl]

/-- Witness for c2_lfn_detection at the concrete record with attributes
0x1F: it is routed to the LFN branch. -/
theorem c2_lfn_detection_witness :
    EntryIter.run none [lfnRec1F] =
      if Attributes.lfn (byteAt lfnRec1F 11) then
        EntryIter.run
          (some ((Option.getD none emptyScratch).set
            ((byteAt lfnRec1F 0 &&& 0x1F) - 1) (lfnUnits lfnRec1F))) []
      else
        match EntryIter.run none [] with
        | .ok es => .ok (mkEntry none lfnRec1F :: es)
        | .err e => .err e
        | .panic => .panic
        | .diverge => .diverge := by
  exact c2_lfn_detection none [] lfnRec1F (by decide) (by decide) (by decide)

/-- C3 amended: a record that reaches the regular arm of the iterator is
emitted in front of the remaining entries, and its first cluster is
Cluster::from((high16 << 16) | low16) — the Cluster conversion masks to 28
bits; whenever the high word is below 0x1000 (as on any well-formed volume)
this is exactly (high16 << 16) | low16.  No root-cluster substitution for
"." or ".." takes place. -/
theorem c3_first_cluster_compose (lfn : Option (List (List Nat)))
    (rest : List (List Nat)) (r : List Nat)
    (h0 : byteAt r 0 ≠ 0x00) (h1 : byteAt r 0 ≠ 0xE5)
    (h2 : Attributes.lfn (byteAt r 11) = false)
    (hb : ∀ b ∈ r, b < 256)
    (es : List EntryM) (hrest : EntryIter.run none rest = .ok es) :
    EntryIter.run lfn (r :: rest) = .ok (mkEntry lfn r :: es) ∧
      (mkEntry lfn r).first_cluster = clusterFrom ((u16At r 20) <<< 16 ||| u16At r 26) ∧
      (u16At r 20 < 0x1000 →
        (mkEntry lfn r).first_cluster = (u16At r 20) <<< 16 ||| u16At r 26) := by
  refine ⟨?_, rfl, ?_⟩
  · simp only [EntryIter.run, beq_iff_eq, if_neg h0, if_neg h1, h2, Bool.false_eq_true,
      if_false, hrest]
  · intro hhi
    have hlo : u16At r 26 < 0x10000 := by
      have b1 := byteAt_lt r hb 26
      have b2 := byteAt_lt r hb 27
      show byteAt r 26 + 0x100 * byteAt r 27 < 0x10000
      omega
    show clusterFrom _ = _
    unfold clusterFrom
    apply Nat.mod_eq_of_lt
    apply Nat.or_lt_two_pow
    · rw [Nat.shiftLeft_eq]
      calc u16At r 20 * 2 ^ 16 < 0x1000 * 2 ^ 16 := by
            have := hhi
            omega
      _ = 2 ^ 28 := by norm_num
    · omega

/-- Witness for c3_first_cluster_compose at the concrete "." record. -/
theorem c3_first_cluster_compose_witness :
    EntryIter.run none [dotRec] = .ok [mkEntry none dotRec] ∧
      (mkEntry none dotRec).first_cluster =
        clusterFrom ((u16At dotRec 20) <<< 16 ||| u16At dotRec 26) ∧
      (u16At dotRec 20 < 0x1000 →
        (mkEntry none dotRec).first_cluster = (u16At dotRec 20) <<< 16 ||| u16At dotRec 26) := by
  exact c3_first_cluster_compose none [] dotRec (by decide) (by decide) (by decide)
    (by decide) [] rfl

/-- C4 amended: a record with LFN attributes whose low-5-bit sequence number
is 0 (sequence byte 0x20, 0x40, ...) makes the directory iterator panic; no
error value is returned to the caller. -/
theorem c4_bad_seq_panics (lfn : Option (List (List Nat))) (rest : List (List Nat))
    (r : List Nat) (h0 : byteAt r 0 ≠ 0x00) (h1 : byteAt r 0 ≠ 0xE5)
    (hlfn : Attributes.lfn (byteAt r 11) = true) (hseq : byteAt r 0 &&& 0x1F = 0) :
    EntryIter.run lfn (r :: rest) = .panic := by
  simp only [EntryIter.run, beq_iff_eq, if_neg h0, if_neg h1, if_pos hlfn]
  rw [if_pos (by omega)]

/-- Witness for c4_bad_seq_panics at the concrete record with sequence byte
0x40. -/
theorem c4_bad_seq_panics_witness : EntryIter.run none [badSeqRec] = .panic := by
  exact c4_bad_seq_panics none [] badSeqRec (by decide) (by decide) (by decide) (by decide)

/-- Comparing ignoring ASCII case is unchanged by pointwise query maps that
preserve the ASCII-lowercased value. -/
theorem eqIgnore_map (nm q : List Nat) (f : Nat → Nat)
    (hf : ∀ x, asciiLower (f x) = asciiLower x) :
    eqIgnoreAsciiCase nm (q.map f) = eqIgnoreAsciiCase nm q := by
  unfold eqIgnoreAsciiCase
  rw [List.length_map]
  congr 1
  induction nm generalizing q with
  | nil => cases q <;> simp
  | cons x xs ih =>
    cases q with
    | nil => simp
    | cons y ys => simp [hf y, ih]

/-- The find loop is unchanged by pointwise query maps that preserve the
ASCII-lowercased value. -/
theorem findGo_map (q : List Nat) (f : Nat → Nat)
    (hf : ∀ x, asciiLower (f x) = asciiLower x) (es : List EntryM) :
    findGo (q.map f) es = findGo q es := by
  induction es with
  | nil => rfl
  | cons e rest ih => simp only [findGo, eqIgnore_map e.name q f hf, ih]

/-- C6 amended: Dir::find is invariant under ASCII case changes of the
query: ASCII-uppercasing or ASCII-lowercasing it never changes the result.
Hence for every entry whose name's unicode case mappings only change ASCII
letters, the uppercased and the lowercased lookups return the same entry;
names whose case mappings involve non-ASCII characters are not matched that
way (see the counterexample). -/
theorem c6_find_ascii_invariant (recs : List (List Nat)) (q : List Nat) :
    Dir.find recs (q.map asciiUpper) = Dir.find recs q ∧
      Dir.find recs (q.map asciiLower) = Dir.find recs q := by
  unfold Dir.find
  cases h : EntryIter.run none recs <;>
    simp [findGo_map q asciiUpper asciiLower_asciiUpper,
      findGo_map q asciiLower asciiLower_asciiLower]

/-- The read_cluster while loop reads exactly j whole sectors when the
remaining span is j sectors and the buffer ends at the span's end. -/
theorem readLoop_spec (v : VFat) (hbps : 0 < v.bytes_per_sector)
    (hsec : ∀ n, (v.sector n).length = v.bytes_per_sector) :
    ∀ (j fuel nsector index : Nat) (acc : List Nat), j ≤ fuel →
      VFat.readLoop v fuel nsector index (index + j * v.bytes_per_sector)
          (index + j * v.bytes_per_sector) acc =
        (acc ++ ((List.range' nsector j).map v.sector).flatten,
          index + j * v.bytes_per_sector) := by
  intro j
  induction j with
  | zero =>
    intro fuel nsector index acc hf
    cases fuel with
    | zero => simp [VFat.readLoop]
    | succ f => simp [VFat.readLoop]
  | succ k ih =>
    intro fuel nsector index acc hf
    cases fuel with
    | zero => exact (Nat.not_succ_le_zero k hf).elim
    | succ f =>
      have hpos : 0 < (k + 1) * v.bytes_per_sector := Nat.mul_pos (Nat.succ_pos k) hbps
      rw [VFat.readLoop, if_pos (by omega)]
      have hsub : index + (k + 1) * v.bytes_per_sector - index
          = (k + 1) * v.bytes_per_sector := by omega
      have hmin : min v.bytes_per_sector ((k + 1) * v.bytes_per_sector)
          = v.bytes_per_sector :=
        Nat.min_eq_left (Nat.le_mul_of_pos_left _ (Nat.succ_pos k))
      rw [hsub, hmin]
      have htake : (v.sector nsector).take v.bytes_per_sector = v.sector nsector := by
        rw [← hsec nsector]
        exact List.take_length _
      dsimp only
      rw [htake]
      have hrw : index + (k + 1) * v.bytes_per_sector
          = (index + v.bytes_per_sector) + k * v.bytes_per_sector := by ring
      rw [hrw, ih f (nsector + 1) (index + v.bytes_per_sector)
        (acc ++ v.sector nsector) (by omega)]
      rw [List.range'_succ]
      simp [List.append_assoc]

/-- A cluster's data has cluster_size bytes. -/
theorem clusterData_length (v : VFat)
    (hsec : ∀ n, (v.sector n).length = v.bytes_per_sector) (c : Nat) :
    (v.clusterData c).length = v.cluster_size := by
  unfold VFat.clusterData VFat.cluster_size
  rw [List.length_flatten, List.map_map]
  have : (List.range' (v.data_start_sector + (c - 2) * v.sectors_per_cluster)
      v.sectors_per_cluster).map (List.length ∘ v.sector)
      = (List.range' (v.data_start_sector + (c - 2) * v.sectors_per_cluster)
        v.sectors_per_cluster).map (fun _ => v.bytes_per_sector) := by
    apply List.map_congr_left
    intro a _
    exact hsec a
  rw [this, List.map_const', List.sum_replicate, List.length_range', smul_eq_mul]

/-- Resizing to the current length plus n appends n zeros. -/
theorem resizeList_append (l : List Nat) (n : Nat) :
    resizeList l (l.length + n) = l ++ List.replicate n 0 := by
  unfold resizeList
  rw [List.take_of_length_le (by omega), Nat.add_sub_cancel_left]

/-- The read_cluster while loop started after the initial whole sector reads
the remaining sectors of the cluster: with both the span and the buffer
ending at cluster_size, the result is the cluster's sectors from n on. -/
theorem readLoop_cluster (v : VFat) (hbps : 0 < v.bytes_per_sector)
    (hspc : 0 < v.sectors_per_cluster)
    (hsec : ∀ n, (v.sector n).length = v.bytes_per_sector) (n : Nat) :
    VFat.readLoop v v.cluster_size (n + 1) v.bytes_per_sector v.cluster_size
        v.cluster_size (v.sector n) =
      (((List.range' n v.sectors_per_cluster).map v.sector).flatten, v.cluster_size) := by
  obtain ⟨k, hk⟩ : ∃ k, v.sectors_per_cluster = k + 1 :=
    ⟨v.sectors_per_cluster - 1, by omega⟩
  have hcs : v.cluster_size = v.bytes_per_sector + k * v.bytes_per_sector := by
    unfold VFat.cluster_size
    rw [hk]
    ring
  rw [hk, List.range'_succ, hcs]
  have hfuel : k ≤ v.bytes_per_sector + k * v.bytes_per_sector :=
    le_trans (Nat.le_mul_of_pos_right _ hbps) (Nat.le_add_left _ _)
  rw [readLoop_spec v hbps hsec k _ _ _ _ hfuel]
  simp

/-- read_cluster with offset 0 and a full-cluster buffer returns the whole
cluster's data, for a data cluster whose FAT entry is readable and not Bad. -/
theorem read_cluster_full (v : VFat) (hbps : 0 < v.bytes_per_sector)
    (hspc : 0 < v.sectors_per_cluster)
    (hsec : ∀ n, (v.sector n).length = v.bytes_per_sector)
    (c : Nat) (h2 : 2 ≤ c) (raw : Nat) (hraw : v.fat_entry c = .ok raw)
    (st : Status) (hst : FatEntry.status raw = some st) (hbad : st ≠ .Bad) :
    v.read_cluster c 0 v.cluster_size = .ok (v.clusterData c, v.cluster_size) := by
  have hble : v.bytes_per_sector ≤ v.cluster_size :=
    Nat.le_mul_of_pos_left _ hspc
  unfold VFat.read_cluster
  rw [hraw]
  show (match FatEntry.status raw with
    | none => RResult.panic
    | some st => _) = _
  rw [hst]
  simp only
  rw [if_neg hbad, if_neg (by omega : ¬ c < 2)]
  simp only [Nat.zero_div, Nat.add_zero, Nat.zero_mod, Nat.sub_zero, Nat.min_self,
    List.drop_zero]
  rw [Nat.min_eq_right hble]
  have htake : (v.sector (v.data_start_sector + (c - 2) * v.sectors_per_cluster)).take
      v.bytes_per_sector = v.sector (v.data_start_sector + (c - 2) * v.sectors_per_cluster) := by
    rw [← hsec (v.data_start_sector + (c - 2) * v.sectors_per_cluster)]
    exact List.take_length _
  rw [htake]
  rw [readLoop_cluster v hbps hspc hsec (v.data_start_sector + (c - 2) * v.sectors_per_cluster)]
  rfl

/-- A classified status comes from a successful fat_entry read. -/
theorem statusOf_eq_fat (v : VFat) (c : Nat) (st : Status)
    (h : v.statusOf c = some st) :
    ∃ raw, v.fat_entry c = .ok raw ∧ FatEntry.status raw = some st := by
  unfold VFat.statusOf at h
  cases he : v.fat_entry c with
  | ok raw =>
    rw [he] at h
    exact ⟨raw, rfl, h⟩
  | err e =>
    rw [he] at h
    simp at h
  | panic =>
    rw [he] at h
    simp at h
  | diverge =>
    rw [he] at h
    simp at h

/-- An Eoc test pins down the status. -/
theorem isEocStatus_eq (o : Option Status) (h : isEocStatus o = true) :
    ∃ e, o = some (.Eoc e) := by
  rcases o with _ | st
  · simp [isEocStatus] at h
  · rcases st with _ | _ | n | _ | e
    · simp [isEocStatus] at h
    · simp [isEocStatus] at h
    · simp [isEocStatus] at h
    · simp [isEocStatus] at h
    · exact ⟨e, rfl⟩

/-- A Data-to test pins down the status. -/
theorem isDataTo_eq (c' : Nat) (o : Option Status) (h : isDataTo c' o = true) :
    o = some (.Data c') := by
  rcases o with _ | st
  · simp [isDataTo] at h
  · rcases st with _ | _ | n | _ | e
    · simp [isDataTo] at h
    · simp [isDataTo] at h
    · simp [isDataTo] at h
      simp [h]
    · simp [isDataTo] at h
    · simp [isDataTo] at h

/-- One read_chain iteration on a Free/Reserved/Bad status fails InvalidData
before touching the buffer. -/
theorem read_chain_aux_frb (v : VFat) (f c raw : Nat)
    (he : v.fat_entry c = .ok raw) (st : Status) (hst : FatEntry.status raw = some st)
    (hfrb : st = .Free ∨ st = .Reserved ∨ st = .Bad) (buf : List Nat) (index : Nat) :
    v.read_chain_aux (f + 1) (some c) buf index = .err .invalidData := by
  simp only [VFat.read_chain_aux, he, hst]
  rcases hfrb with h | h | h <;> subst h <;> rfl

/-- One read_chain iteration on a Data or Eoc status appends the cluster's
data to the buffer and continues on the successor. -/
theorem read_chain_aux_step (v : VFat) (hbps : 0 < v.bytes_per_sector)
    (hspc : 0 < v.sectors_per_cluster)
    (hsec : ∀ n, (v.sector n).length = v.bytes_per_sector)
    (f c : Nat) (h2 : 2 ≤ c) (raw : Nat) (he : v.fat_entry c = .ok raw)
    (st : Status) (hst : FatEntry.status raw = some st) (next : Option Nat)
    (hnext : (match st with
      | .Data n => some (some n)
      | .Eoc _ => some none
      | _ => none) = some next)
    (buf : List Nat) :
    v.read_chain_aux (f + 1) (some c) buf buf.length =
      v.read_chain_aux f next (buf ++ v.clusterData c)
        (buf ++ v.clusterData c).length := by
  have hbad : st ≠ .Bad := by
    rcases st with _ | _ | n | _ | e <;> simp at hnext ⊢
  simp only [VFat.read_chain_aux, he, hst]
  rcases st with _ | _ | n | _ | e
  · simp at hnext
  · simp at hnext
  · obtain rfl : next = some n := by
      simpa using hnext.symm
    simp only
    rw [resizeList_append]
    have hlen : (buf ++ List.replicate v.cluster_size 0).length - buf.length
        = v.cluster_size := by simp
    rw [hlen, read_cluster_full v hbps hspc hsec c h2 raw he _ hst hbad]
    simp only
    rw [List.take_left, List.drop_eq_nil_of_le (by simp [clusterData_length v hsec])]
    simp [clusterData_length v hsec]
  · simp at hnext
  · obtain rfl : next = none := by
      simpa using hnext.symm
    simp only
    rw [resizeList_append]
    have hlen : (buf ++ List.replicate v.cluster_size 0).length - buf.length
        = v.cluster_size := by simp
    rw [hlen, read_cluster_full v hbps hspc hsec c h2 raw he _ hst hbad]
    simp only
    rw [List.take_left, List.drop_eq_nil_of_le (by simp [clusterData_length v hsec])]
    simp [clusterData_length v hsec]

/-- read_chain's loop on a valid chain: the buffer accumulates the chain's
clusters in order and the index advances by cluster_size per cluster. -/
theorem read_chain_aux_ok (v : VFat) (hbps : 0 < v.bytes_per_sector)
    (hspc : 0 < v.sectors_per_cluster)
    (hsec : ∀ n, (v.sector n).length = v.bytes_per_sector) :
    ∀ (rest : List Nat) (c fuel : Nat) (buf : List Nat),
      ChainOk v (c :: rest) = true → (c :: rest).length ≤ fuel →
      v.read_chain_aux fuel (some c) buf buf.length =
        .ok (buf ++ ((c :: rest).map v.clusterData).flatten,
          buf.length + (c :: rest).length * v.cluster_size) := by
  intro rest
  induction rest with
  | nil =>
    intro c fuel buf hok hf
    simp only [ChainOk, Bool.and_eq_true, decide_eq_true_eq] at hok
    obtain ⟨h2, heoc⟩ := hok
    obtain ⟨e, hsE⟩ := isEocStatus_eq _ heoc
    obtain ⟨raw, he, hst⟩ := statusOf_eq_fat v c _ hsE
    cases fuel with
    | zero => simp at hf
    | succ f =>
      rw [read_chain_aux_step v hbps hspc hsec f c h2 raw he _ hst none rfl buf]
      rw [VFat.read_chain_aux]
      simp [clusterData_length v hsec]
  | cons c' rest' ih =>
    intro c fuel buf hok hf
    simp only [ChainOk, Bool.and_eq_true, decide_eq_true_eq] at hok
    obtain ⟨⟨h2, hdata⟩, hchain⟩ := hok
    have hsD := isDataTo_eq c' _ hdata
    obtain ⟨raw, he, hst⟩ := statusOf_eq_fat v c _ hsD
    cases fuel with
    | zero => simp at hf
    | succ f =>
      rw [read_chain_aux_step v hbps hspc hsec f c h2 raw he _ hst (some c') rfl buf]
      rw [ih c' f (buf ++ v.clusterData c) hchain (by simp at hf ⊢; omega)]
      simp only [RResult.ok.injEq, Prod.mk.injEq, List.length_append,
        clusterData_length v hsec, List.map_cons, List.flatten_cons, List.length_cons]
      constructor
      · simp [List.append_assoc]
      · ring

/-- read_chain's loop on a chain ending in a Free/Reserved/Bad entry fails
with InvalidData. -/
theorem read_chain_aux_bad (v : VFat) (hbps : 0 < v.bytes_per_sector)
    (hspc : 0 < v.sectors_per_cluster)
    (hsec : ∀ n, (v.sector n).length = v.bytes_per_sector) :
    ∀ (rest : List Nat) (c fuel : Nat) (buf : List Nat),
      ChainBad v (c :: rest) = true → (c :: rest).length ≤ fuel →
      v.read_chain_aux fuel (some c) buf buf.length = .err .invalidData := by
  intro rest
  induction rest with
  | nil =>
    intro c fuel buf hbd hf
    simp only [ChainBad] at hbd
    have hex : ∃ st, v.statusOf c = some st
        ∧ (st = .Free ∨ st = .Reserved ∨ st = .Bad) := by
      rcases ho : v.statusOf c with _ | st
      · rw [ho] at hbd
        simp [isFrbStatus] at hbd
      · rw [ho] at hbd
        rcases st with _ | _ | n | _ | e
        · exact ⟨_, rfl, Or.inl rfl⟩
        · exact ⟨_, rfl, Or.inr (Or.inl rfl)⟩
        · simp [isFrbStatus] at hbd
        · exact ⟨_, rfl, Or.inr (Or.inr rfl)⟩
        · simp [isFrbStatus] at hbd
    obtain ⟨st, hsE, hfrb⟩ := hex
    obtain ⟨raw, he, hst⟩ := statusOf_eq_fat v c _ hsE
    cases fuel with
    | zero => simp at hf
    | succ f => exact read_chain_aux_frb v f c raw he st hst hfrb buf _
  | cons c' rest' ih =>
    intro c fuel buf hbd hf
    simp only [ChainBad, Bool.and_eq_true, decide_eq_true_eq] at hbd
    obtain ⟨⟨h2, hdata⟩, hchain⟩ := hbd
    have hsD := isDataTo_eq c' _ hdata
    obtain ⟨raw, he, hst⟩ := statusOf_eq_fat v c _ hsD
    cases fuel with
    | zero => simp at hf
    | succ f =>
      rw [read_chain_aux_step v hbps hspc hsec f c h2 raw he _ hst (some c') rfl buf]
      exact ih c' f (buf ++ v.clusterData c) hchain (by simp at hf ⊢; omega)

/-- C5: on a valid FAT chain of Data links ending in Eoc, read_chain succeeds
and returns chain length * cluster_size with the buffer holding the chain's
clusters concatenated in order; on a chain whose walk meets a Free, Reserved
or Bad entry, read_chain fails InvalidData. -/
theorem c5_read_chain_spec (v : VFat) (hbps : 0 < v.bytes_per_sector)
    (hspc : 0 < v.sectors_per_cluster)
    (hsec : ∀ n, (v.sector n).length = v.bytes_per_sector)
    (c : Nat) (rest : List Nat) (fuel : Nat) (hfuel : (c :: rest).length ≤ fuel) :
    (ChainOk v (c :: rest) = true →
      v.read_chain fuel c =
        .ok (((c :: rest).map v.clusterData).flatten,
          (c :: rest).length * v.cluster_size)) ∧
    (ChainBad v (c :: rest) = true → v.read_chain fuel c = .err .invalidData) := by
  constructor
  · intro hok
    have h := read_chain_aux_ok v hbps hspc hsec rest c fuel [] hok hfuel
    simpa [VFat.read_chain] using h
  · intro hbd
    have h := read_chain_aux_bad v hbps hspc hsec rest c fuel [] hbd hfuel
    simpa [VFat.read_chain] using h

/-- Witness for c5_read_chain_spec: on sampleVFat the chain 2 -> 3 -> Eoc
reads to the eight data bytes with count 8, and the one-cluster chain 4
(whose FAT entry is Free) fails InvalidData. -/
theorem c5_read_chain_spec_witness :
    VFat.read_chain sampleVFat 2 2 = .ok ([1, 2, 3, 4, 5, 6, 7, 8], 8) ∧
      VFat.read_chain sampleVFat 1 4 = .err .invalidData := by
  constructor
  · exact (c5_read_chain_spec sampleVFat (by decide) (by decide) sampleSector_length
      2 [3] 2 (by decide)).1 (by decide)
  · exact (c5_read_chain_spec sampleVFat (by decide) (by decide) sampleSector_length
      4 [] 1 (by decide)).2 (by decide)

end Fat32
